import Mathlib

/-!
Verification of the natural-language specification of the
`lakebase_end_to_end_training` repository against a shallow embedding of its
Python sources (`dash_app.py`, `setup_lakebase_tables.py`,
`setup_lakebase_project.py`).

Conventions of the embedding:
* Python strings are modelled as `String` (configuration values) or as
  `List Char` (SQL query text, where character-level operations matter);
* `time.time()` values are modelled as rationals;
* Python float compute-unit values are modelled as rationals;
* exceptions are modelled with `Except`;
* module-level mutable state is passed explicitly and returned updated;
* calls to external services (token issuance, endpoint discovery, the
  physical database channel) are modelled as explicit oracle arguments, and
  the number of such calls a code path performs is returned alongside its
  result so that claims about "no call is made" are expressible.
-/

namespace LakebaseTraining

/-! ### Token cache (`dash_app.py`, `refresh_oauth_token`, lines 37-48)

    global postgres_password, last_password_refresh
    if postgres_password is None or time.time() - last_password_refresh > 900:
        postgres_password = workspace_client.config.oauth_token().access_token
        last_password_refresh = time.time()
-/

/-- The module-level token cache of `dash_app.py`: the cached password and the
time it was last refreshed. -/
structure TokenState where
  postgres_password : Option String
  last_password_refresh : ℚ
  deriving DecidableEq, Repr

/-- Embedding of `refresh_oauth_token` (`dash_app.py` lines 37-48): `now` is
the value of `time.time()`, `freshTok` the token the issuing service would
return. The second component counts the issuance calls performed by this
call (0 or 1). -/
def refresh_oauth_token (st : TokenState) (now : ℚ) (freshTok : String) :
    TokenState × Nat :=
  if st.postgres_password = none ∨ now - st.last_password_refresh > 900 then
    (⟨some freshTok, now⟩, 1)
  else
    (st, 0)

/-! ### Connection opening (`dash_app.py`, `get_connection` lines 71-81 and
`LakebaseConnection.connect` lines 100-108)

    def connect(self):
        try:
            self.connection = get_connection()
            self.cursor = self.connection.cursor(row_factory=dict_row)
            return True
        except Exception as e:
            print(f"Connection failed: {e}")
            return False

There is no retry loop and no `time.sleep` anywhere on this path: the
physical channel is opened once, and a failure is reported by returning
`False` (the exception is swallowed). -/

/-- Observable effects of one `LakebaseConnection.connect` call: the boolean
the method returns, how many times a physical channel open was attempted,
and the waits (in seconds) performed between attempts. -/
structure ConnectEffects where
  success : Bool
  openAttempts : Nat
  sleeps : List ℚ
  deriving DecidableEq, Repr

/-- Embedding of `LakebaseConnection.connect`: `openChannel` is the outcome
of the single `get_connection()` call (the pooled physical open). The source
performs exactly one attempt, sleeps never, and catches any exception,
returning `False`. -/
def LakebaseConnection_connect (openChannel : Except String Unit) :
    ConnectEffects :=
  match openChannel with
  | .ok _ => ⟨true, 1, []⟩
  | .error _ => ⟨false, 1, []⟩

/-! ### Theorems for claims C1 and C2 -/

/-- The literal reading of claim C1: the cached credential is returned for
ages strictly below the freshness window, and every age `t ≥ 900` triggers a
fresh issuance. -/
def claimC1 : Prop :=
  ∀ (st : TokenState) (now : ℚ) (tok : String),
    (st.postgres_password ≠ none → now - st.last_password_refresh < 900 →
      refresh_oauth_token st now tok = (st, 0)) ∧
    (now - st.last_password_refresh ≥ 900 →
      (refresh_oauth_token st now tok).2 = 1)

/-- C1 counterexample: at credential age exactly 900 (the freshness window)
the source performs no issuance — the guard is `> 900`, not `≥ 900` — so
"every age `t ≥ freshness_window` performs a fresh issuance" is false. -/
theorem refresh_boundary_no_issuance : ¬ claimC1 := by
  intro h
  have h2 := (h ⟨some "tok", 0⟩ 900 "new").2 (by norm_num)
  simp [refresh_oauth_token] at h2

/-- C1 amended: the cached credential is returned unchanged (no issuance)
whenever it is present and its age is at most the 900-second freshness
window; a fresh issuance is performed, stored with its issuance time and
returned exactly when the cache is empty or the age strictly exceeds the
window. -/
theorem refresh_policy (st : TokenState) (now : ℚ) (tok : String) :
    (∀ p, st.postgres_password = some p → now - st.last_password_refresh ≤ 900 →
      refresh_oauth_token st now tok = (st, 0)) ∧
    ((st.postgres_password = none ∨ now - st.last_password_refresh > 900) →
      refresh_oauth_token st now tok = (⟨some tok, now⟩, 1)) := by
  constructor
  · intro p hp hage
    have hcond : ¬ (st.postgres_password = none ∨
        now - st.last_password_refresh > 900) := by
      rintro (hnone | hgt)
      · rw [hp] at hnone; exact Option.noConfusion hnone
      · exact absurd hgt (not_lt.mpr hage)
    simp [refresh_oauth_token, hcond]
  · intro hcond
    simp [refresh_oauth_token, hcond]

/-- Witness for `refresh_policy` at concrete states: a 1-second-old cached
token is reused; an empty cache triggers an issuance. -/
theorem refresh_policy_witness :
    refresh_oauth_token ⟨some "a", 0⟩ 1 "t" = (⟨some "a", 0⟩, 0) ∧
    refresh_oauth_token ⟨none, 0⟩ 5 "t" = (⟨some "t", 5⟩, 1) :=
  ⟨(refresh_policy ⟨some "a", 0⟩ 1 "t").1 "a" rfl (by norm_num),
   (refresh_policy ⟨none, 0⟩ 5 "t").2 (Or.inl rfl)⟩

/-- The literal reading of claim C2's checkable content: against a failing
transport the open operation makes at most 3 attempts and performs the
backoff waits of 2s then 4s between them (a persistently failing transport
exhausts every attempt, so both waits must occur). -/
def claimC2 : Prop :=
  ∀ e : String,
    (LakebaseConnection_connect (.error e)).openAttempts ≤ 3 ∧
    (LakebaseConnection_connect (.error e)).sleeps = [2, 4]

/-- C2 counterexample: with a failing transport the source makes a single
attempt and performs no waits at all — there is no retry loop, no backoff,
and no `ConnectionExhausted` error (the method returns `False` instead of
raising). -/
theorem connect_no_backoff : ¬ claimC2 := by
  intro h
  have h2 := (h "connection refused").2
  simp [LakebaseConnection_connect] at h2

/-- C2 amended: every `connect` call makes exactly one physical open attempt
and never waits; a failing transport makes it return `False` (no exception
is surfaced), a working transport makes it return `True`. -/
theorem connect_single_attempt (openChannel : Except String Unit) :
    (LakebaseConnection_connect openChannel).openAttempts = 1 ∧
    (LakebaseConnection_connect openChannel).sleeps = [] ∧
    (∀ e, openChannel = .error e →
      (LakebaseConnection_connect openChannel).success = false) ∧
    (openChannel = .ok () →
      (LakebaseConnection_connect openChannel).success = true) := by
  cases openChannel <;> simp [LakebaseConnection_connect]

/-- Witness for `connect_single_attempt` on a concrete failing transport. -/
theorem connect_single_attempt_witness :
    (LakebaseConnection_connect (.error "refused")).openAttempts = 1 ∧
    (LakebaseConnection_connect (.error "refused")).success = false := by
  have h := connect_single_attempt (.error "refused")
  exact ⟨h.1, h.2.2.1 "refused" rfl⟩

/-! ### Transactional executor (`dash_app.py`, `LakebaseConnection.execute_query`,
lines 110-125)

    def execute_query(self, query, params=None):
        try:
            self.cursor.execute(query, params)
            if query.strip().upper().startswith('SELECT'):
                return self.cursor.fetchall()
            elif 'RETURNING' in query.upper():
                result = self.cursor.fetchall()
                self.connection.commit()
                return result
            else:
                self.connection.commit()
                return self.cursor.rowcount
        except Exception as e:
            self.connection.rollback()
            raise e

Query text is modelled as `List Char`. `str.strip()`, `str.upper()`,
`str.startswith` and the `in` substring test are embedded below character
by character. -/

/-- Python `str.upper()` on the query text (character-wise, basic latin). -/
def pyUpper (l : List Char) : List Char :=
  l.map Char.toUpper

/-- Python `str.strip()`: drop whitespace from both ends. -/
def pyStrip (l : List Char) : List Char :=
  ((l.dropWhile Char.isWhitespace).reverse.dropWhile Char.isWhitespace).reverse

/-- Python `str.startswith(pat)` on character lists. -/
def startsWithSeq : List Char → List Char → Bool
  | [], _ => true
  | _ :: _, [] => false
  | p :: ps, c :: cs => p == c && startsWithSeq ps cs

/-- Python `pat in s` (substring containment) on character lists. -/
def containsSeq (pat : List Char) : List Char → Bool
  | [] => startsWithSeq pat []
  | c :: cs => startsWithSeq pat (c :: cs) || containsSeq pat cs

/-- The statement kind `execute_query` derives from the query text. -/
inductive QueryKind where
  | select
  | writeReturning
  | write
  deriving DecidableEq, Repr

/-- `query.strip().upper().startswith('SELECT')` /
`'RETURNING' in query.upper()` — the text inspection of
`execute_query` (`dash_app.py` lines 114-121). -/
def classifyQuery (q : List Char) : QueryKind :=
  if startsWithSeq "SELECT".toList (pyUpper (pyStrip q)) then .select
  else if containsSeq "RETURNING".toList (pyUpper q) then .writeReturning
  else .write

/-- The value `execute_query` returns: a row set (`fetchall()`) or a row
count (`cursor.rowcount`). Rows are modelled opaquely as strings. -/
inductive ExecResult where
  | rows (rs : List String)
  | count (n : Int)
  deriving DecidableEq, Repr

deriving instance DecidableEq for Except

/-- Observable effects of one `execute_query` call: what it returns or
raises, and how many commits and (successful) rollbacks it performed. -/
structure ExecEffects where
  outcome : Except String ExecResult
  commits : Nat
  rollbacks : Nat
  deriving DecidableEq, Repr

/-- Embedding of `execute_query`: `cursorExec` is the outcome of
`cursor.execute` (on success, the fetched rows and the row count);
`rollbackOutcome` is what `connection.rollback()` would do if invoked. On an
execution error the source rolls back and re-raises the original error; if
the rollback itself raises, that exception propagates instead (the `raise e`
line is never reached). -/
def execute_query (q : List Char) (cursorExec : Except String (List String × Int))
    (rollbackOutcome : Except String Unit) : ExecEffects :=
  match cursorExec with
  | .ok (fetched, rowcount) =>
    match classifyQuery q with
    | .select => ⟨.ok (.rows fetched), 0, 0⟩
    | .writeReturning => ⟨.ok (.rows fetched), 1, 0⟩
    | .write => ⟨.ok (.count rowcount), 1, 0⟩
  | .error e =>
    match rollbackOutcome with
    | .ok _ => ⟨.error e, 0, 1⟩
    | .error re => ⟨.error re, 0, 0⟩

/-! ### Theorems for claim C3 -/

/-- The literal reading of claim C3: every `execute_query` call performs
exactly one commit or rollback, and on a failing execution the original
error is always the one re-raised (never masked by a rollback failure). -/
def claimC3 : Prop :=
  ∀ (q : List Char) (cursorExec : Except String (List String × Int))
    (rollbackOutcome : Except String Unit),
    (execute_query q cursorExec rollbackOutcome).commits +
      (execute_query q cursorExec rollbackOutcome).rollbacks = 1 ∧
    (∀ e, cursorExec = .error e →
      (execute_query q cursorExec rollbackOutcome).outcome = .error e)

/-- C3 counterexample: a successful `SELECT` performs zero commits and zero
rollbacks (the `SELECT` branch returns without touching the transaction),
and when the rollback itself fails the rollback's error replaces the
original one. -/
theorem execute_query_effects_cex :
    (execute_query "SELECT 1".toList (.ok (["r"], 0)) (.ok ())).commits +
      (execute_query "SELECT 1".toList (.ok (["r"], 0)) (.ok ())).rollbacks = 0 ∧
    (execute_query "UPDATE t SET a = 1".toList (.error "orig")
      (.error "rollback failed")).outcome = .error "rollback failed" ∧
    ¬ claimC3 := by
  refine ⟨by decide, by decide, fun h => ?_⟩
  have h1 := (h "SELECT 1".toList (.ok (["r"], 0)) (.ok ())).1
  revert h1
  decide

/-- C3 amended: a `SELECT` commits and rolls back nothing; any other
successful statement commits exactly once and rolls back nothing; on a
failing execution a rollback is attempted and, when the rollback succeeds,
the original error is re-raised with exactly one rollback performed — but
when the rollback itself fails, the rollback's error is the one raised
(masking the original). -/
theorem execute_query_effects (q : List Char)
    (cursorExec : Except String (List String × Int))
    (rollbackOutcome : Except String Unit) :
    (∀ fetched rowcount, cursorExec = .ok (fetched, rowcount) →
      (classifyQuery q = .select →
        execute_query q cursorExec rollbackOutcome = ⟨.ok (.rows fetched), 0, 0⟩) ∧
      (classifyQuery q ≠ .select →
        (execute_query q cursorExec rollbackOutcome).commits = 1 ∧
        (execute_query q cursorExec rollbackOutcome).rollbacks = 0)) ∧
    (∀ e, cursorExec = .error e →
      (rollbackOutcome = .ok () →
        execute_query q cursorExec rollbackOutcome = ⟨.error e, 0, 1⟩) ∧
      (∀ re, rollbackOutcome = .error re →
        execute_query q cursorExec rollbackOutcome = ⟨.error re, 0, 0⟩)) := by
  constructor
  · rintro fetched rowcount rfl
    constructor
    · intro hsel
      simp [execute_query, hsel]
    · intro hne
      rcases hcl : classifyQuery q with h | h | h
      · exact absurd hcl hne
      · simp [execute_query, hcl]
      · simp [execute_query, hcl]
  · rintro e rfl
    constructor
    · rintro rfl
      simp [execute_query]
    · rintro re rfl
      simp [execute_query]

/-- Witness for `execute_query_effects`: concrete `SELECT`, write and
failing-execution calls. -/
theorem execute_query_effects_witness :
    execute_query "SELECT 1".toList (.ok (["r"], 0)) (.ok ()) =
      ⟨.ok (.rows ["r"]), 0, 0⟩ ∧
    (execute_query "DELETE FROM t".toList (.ok ([], 2)) (.ok ())).commits = 1 ∧
    execute_query "DELETE FROM t".toList (.error "boom") (.ok ()) =
      ⟨.error "boom", 0, 1⟩ := by
  refine ⟨?_, ?_, ?_⟩
  · exact ((execute_query_effects "SELECT 1".toList (.ok (["r"], 0))
      (.ok ())).1 ["r"] 0 rfl).1 (by decide)
  · exact (((execute_query_effects "DELETE FROM t".toList (.ok ([], 2))
      (.ok ())).1 [] 2 rfl).2 (by decide)).1
  · exact ((execute_query_effects "DELETE FROM t".toList (.error "boom")
      (.ok ())).2 "boom" rfl).1 rfl

/-! ### Character-level facts used for claim C7 -/

/-- `Char.ofNat` on a scalar value below the surrogate range. -/
theorem toNat_ofNat_lt (n : Nat) (h : n < 55296) : (Char.ofNat n).toNat = n := by
  rw [Char.ofNat, dif_pos (Or.inl h)]
  rfl

/-- A character with code point at least 33 is not whitespace. -/
theorem isWhitespace_eq_false {c : Char} (h : 33 ≤ c.toNat) :
    c.isWhitespace = false := by
  simp only [Char.isWhitespace, Bool.or_eq_false_iff, decide_eq_false_iff_not]
  refine ⟨⟨⟨?_, ?_⟩, ?_⟩, ?_⟩ <;> rintro rfl <;> exact absurd h (by decide)

/-- Uppercasing preserves whether a character is whitespace. -/
theorem toUpper_isWhitespace (c : Char) :
    (Char.toUpper c).isWhitespace = c.isWhitespace := by
  show (if c.toNat ≥ 97 ∧ c.toNat ≤ 122 then Char.ofNat (c.toNat - 32)
    else c).isWhitespace = c.isWhitespace
  by_cases hl : c.toNat ≥ 97 ∧ c.toNat ≤ 122
  · rw [if_pos hl]
    have hv : (Char.ofNat (c.toNat - 32)).toNat = c.toNat - 32 :=
      toNat_ofNat_lt _ (by omega)
    rw [isWhitespace_eq_false (by omega : 33 ≤ c.toNat),
      isWhitespace_eq_false (by rw [hv]; omega)]
  · rw [if_neg hl]

/-- `upper` and `strip` commute on query text. -/
theorem pyUpper_pyStrip (q : List Char) :
    pyUpper (pyStrip q) = pyStrip (pyUpper q) := by
  have hpred : (Char.isWhitespace ∘ Char.toUpper) = Char.isWhitespace := by
    funext c
    exact toUpper_isWhitespace c
  simp only [pyStrip, pyUpper, List.dropWhile_map, hpred, ← List.map_reverse]

/-- Stripping ignores an all-whitespace prefix. -/
theorem pyStrip_ws_append (ws q : List Char)
    (hws : ∀ c ∈ ws, c.isWhitespace = true) :
    pyStrip (ws ++ q) = pyStrip q := by
  simp only [pyStrip, List.dropWhile_append_of_pos hws]

/-- Searching for a pattern that starts with a non-whitespace character is
unaffected by an all-whitespace prefix of the text. -/
theorem containsSeq_ws_append (p : Char) (ps ws l : List Char)
    (hp : p.isWhitespace = false) (hws : ∀ c ∈ ws, c.isWhitespace = true) :
    containsSeq (p :: ps) (ws ++ l) = containsSeq (p :: ps) l := by
  induction ws with
  | nil => rfl
  | cons c cs ih =>
    have hc : c.isWhitespace = true := hws c (List.mem_cons_self c cs)
    have hne : (p == c) = false := by
      refine beq_eq_false_iff_ne.mpr ?_
      rintro rfl
      rw [hp] at hc
      exact Bool.false_ne_true hc
    have hstep : startsWithSeq (p :: ps) (c :: (cs ++ l)) = false := by
      simp [startsWithSeq, hne]
    have hunfold : containsSeq (p :: ps) ((c :: cs) ++ l) =
        (startsWithSeq (p :: ps) (c :: (cs ++ l)) || containsSeq (p :: ps) (cs ++ l)) := rfl
    rw [hunfold, hstep, Bool.false_or]
    exact ih fun d hd => hws d (List.mem_cons_of_mem _ hd)

/-- An uppercased all-whitespace list is still all-whitespace. -/
theorem pyUpper_ws (ws : List Char) (hws : ∀ c ∈ ws, c.isWhitespace = true) :
    ∀ c ∈ pyUpper ws, c.isWhitespace = true := by
  intro c hc
  rcases List.mem_map.mp hc with ⟨d, hd, rfl⟩
  rw [toUpper_isWhitespace]
  exact hws d hd

/-- The text classification of `execute_query` is unchanged when the query
text differs only in leading whitespace and letter case. -/
theorem classifyQuery_invariant (ws₁ ws₂ q₁ q₂ : List Char)
    (h1 : ∀ c ∈ ws₁, c.isWhitespace = true)
    (h2 : ∀ c ∈ ws₂, c.isWhitespace = true)
    (hcase : pyUpper q₁ = pyUpper q₂) :
    classifyQuery (ws₁ ++ q₁) = classifyQuery (ws₂ ++ q₂) := by
  have hkey1 : pyUpper (pyStrip (ws₁ ++ q₁)) = pyUpper (pyStrip (ws₂ ++ q₂)) := by
    rw [pyStrip_ws_append ws₁ q₁ h1, pyStrip_ws_append ws₂ q₂ h2,
      pyUpper_pyStrip, pyUpper_pyStrip, hcase]
  have hR : ('R' : Char).isWhitespace = false := by decide
  have hkey2 : containsSeq "RETURNING".toList (pyUpper (ws₁ ++ q₁)) =
      containsSeq "RETURNING".toList (pyUpper (ws₂ ++ q₂)) := by
    have e1 : pyUpper (ws₁ ++ q₁) = pyUpper ws₁ ++ pyUpper q₁ := by
      simp [pyUpper]
    have e2 : pyUpper (ws₂ ++ q₂) = pyUpper ws₂ ++ pyUpper q₂ := by
      simp [pyUpper]
    have hT : "RETURNING".toList = 'R' :: "ETURNING".toList := rfl
    rw [e1, e2, hT,
      containsSeq_ws_append 'R' "ETURNING".toList (pyUpper ws₁) (pyUpper q₁) hR
        (pyUpper_ws ws₁ h1),
      containsSeq_ws_append 'R' "ETURNING".toList (pyUpper ws₂) (pyUpper q₂) hR
        (pyUpper_ws ws₂ h2),
      hcase]
  rw [classifyQuery, classifyQuery, hkey1, hkey2]

/-! ### Theorems for claim C7 -/

/-- The literal reading of claim C7's primary assertion: the kind of Result
is determined by a declared intent supplied by the caller, not by inspecting
the query text. `execute_query`'s only per-call inputs are the query text
and the execution/rollback outcomes — there is no kind argument — so a
classification that does not inspect the text cannot depend on it. -/
def claimC7 : Prop :=
  ∀ (q₁ q₂ : List Char) (cursorExec : Except String (List String × Int))
    (rollbackOutcome : Except String Unit),
    (execute_query q₁ cursorExec rollbackOutcome).outcome.isOk =
      (execute_query q₂ cursorExec rollbackOutcome).outcome.isOk ∧
    (execute_query q₁ cursorExec rollbackOutcome).commits =
      (execute_query q₂ cursorExec rollbackOutcome).commits

/-- C7 counterexample: the executor's behaviour is a function of the query
text (`strip().upper().startswith('SELECT')`, `'RETURNING' in
query.upper()`), not of any caller-declared kind: a `SELECT` and an
`UPDATE` with identical execution outcomes produce different Result kinds
and different commit counts. -/
theorem classify_by_text_cex :
    (execute_query "SELECT 1".toList (.ok (["r"], 1)) (.ok ())).outcome =
      .ok (.rows ["r"]) ∧
    (execute_query "UPDATE t SET a = 1".toList (.ok (["r"], 1)) (.ok ())).outcome =
      .ok (.count 1) ∧
    ¬ claimC7 := by
  refine ⟨by decide, by decide, fun h => ?_⟩
  have h2 := (h "SELECT 1".toList "UPDATE t SET a = 1".toList
    (.ok (["r"], 1)) (.ok ())).2
  revert h2
  decide

/-- C7 amended: the executor classifies each statement by text inspection of
the query string (uppercased stripped prefix `SELECT` → read; substring
`RETURNING` → write-with-feedback; otherwise write), and this classification
— hence the entire observable behaviour of `execute_query` — is identical
for any two statements whose text differs only in leading whitespace or
letter case. -/
theorem execute_query_text_invariant (ws₁ ws₂ q₁ q₂ : List Char)
    (cursorExec : Except String (List String × Int))
    (rollbackOutcome : Except String Unit)
    (h1 : ∀ c ∈ ws₁, c.isWhitespace = true)
    (h2 : ∀ c ∈ ws₂, c.isWhitespace = true)
    (hcase : pyUpper q₁ = pyUpper q₂) :
    execute_query (ws₁ ++ q₁) cursorExec rollbackOutcome =
      execute_query (ws₂ ++ q₂) cursorExec rollbackOutcome := by
  have hcl := classifyQuery_invariant ws₁ ws₂ q₁ q₂ h1 h2 hcase
  cases cursorExec with
  | ok v => simp only [execute_query, hcl]
  | error e => rfl

/-- Witness for `execute_query_text_invariant`: `"  select 1"` and
`"SELECT 1"` behave identically. -/
theorem execute_query_text_invariant_witness :
    execute_query (' ' :: ' ' :: "select 1".toList) (.ok (["r"], 1)) (.ok ()) =
      execute_query ([] ++ "SELECT 1".toList) (.ok (["r"], 1)) (.ok ()) := by
  have h := execute_query_text_invariant [' ', ' '] [] "select 1".toList
    "SELECT 1".toList (.ok (["r"], 1)) (.ok ())
    (by decide) (by decide) (by decide)
  exact h

/-! ### Audit trail trigger (`setup_lakebase_tables.py`, lines 219-239 and
314-332)

The trigger function `ecommerce.audit_products` (installed as
`AFTER INSERT OR UPDATE OR DELETE ON ecommerce.products FOR EACH ROW`):

    IF TG_OP = 'INSERT' THEN
        INSERT INTO ecommerce.audit_log (table_name, operation, record_id, new_data)
        VALUES ('products', 'INSERT', NEW.product_id, row_to_json(NEW)::jsonb);
    ELSIF TG_OP = 'UPDATE' THEN
        INSERT INTO ... ('products', 'UPDATE', NEW.product_id, row_to_json(OLD), row_to_json(NEW));
    ELSIF TG_OP = 'DELETE' THEN
        INSERT INTO ... ('products', 'DELETE', OLD.product_id, row_to_json(OLD));
    END IF;

Rows of `ecommerce.products` are modelled by their primary key plus an
opaque payload standing for the remaining columns; `row_to_json` of a row
state is modelled by the row state itself (an injective serialization). -/

/-- A row of `ecommerce.products`: primary key plus the remaining columns,
collapsed into one opaque payload. -/
structure PRow where
  product_id : Int
  payload : String
  deriving DecidableEq, Repr

/-- A row-level mutation as the storage engine presents it to an
`AFTER ... FOR EACH ROW` trigger: `INSERT` carries `NEW`, `UPDATE` carries
`OLD` and `NEW`, `DELETE` carries `OLD`. -/
inductive Mutation where
  | ins (new : PRow)
  | upd (old new : PRow)
  | del (old : PRow)
  deriving DecidableEq, Repr

/-- A row the trigger appends to `ecommerce.audit_log` (the columns the
trigger populates; `audit_id`, `created_at` and `created_by` are filled by
column defaults and are not part of the trigger body). -/
structure AuditEvent where
  table_name : String
  operation : String
  record_id : Int
  old_data : Option PRow
  new_data : Option PRow
  deriving DecidableEq, Repr

/-- Embedding of the trigger function `ecommerce.audit_products`
(`setup_lakebase_tables.py` lines 219-239). -/
def audit_products : Mutation → AuditEvent
  | .ins n => ⟨"products", "INSERT", n.product_id, none, some n⟩
  | .upd o n => ⟨"products", "UPDATE", n.product_id, some o, some n⟩
  | .del o => ⟨"products", "DELETE", o.product_id, some o, none⟩

/-- The in-transaction (and, after commit, durable) database state relevant
to the audit subsystem: the `ecommerce.products` table and the append-only
`ecommerce.audit_log`. -/
structure PgState where
  products : List PRow
  audit_log : List AuditEvent
  deriving DecidableEq, Repr

/-- Table-level effect of one row mutation on `ecommerce.products`. -/
def applyToProducts (rows : List PRow) : Mutation → List PRow
  | .ins n => rows ++ [n]
  | .upd o n => rows.map fun r => if r.product_id = o.product_id then n else r
  | .del o => rows.filter fun r => r.product_id ≠ o.product_id

/-- Modelled from the spec: the storage engine's row-trigger semantics,
which live inside the database engine and not in the repository sources —
an `AFTER ... FOR EACH ROW` trigger runs synchronously in the same
transaction as the mutating statement (spec section 4.5), so each row
mutation both updates the table and appends the trigger's audit row to the
transaction's view of `ecommerce.audit_log`. -/
def fireMutation (tx : PgState) (m : Mutation) : PgState :=
  ⟨applyToProducts tx.products m, tx.audit_log ++ [audit_products m]⟩

/-- Modelled from the spec: running a transaction's row mutations in order
against the current durable state gives the transaction's final view. -/
def runTransaction (db : PgState) (ms : List Mutation) : PgState :=
  ms.foldl fireMutation db

/-- Modelled from the spec: COMMIT makes the transaction's entire view
durable. -/
def commitTx (db : PgState) (ms : List Mutation) : PgState :=
  runTransaction db ms

/-- Modelled from the spec: ROLLBACK discards the transaction's entire
view, leaving the durable state untouched. -/
def rollbackTx (db : PgState) (_ms : List Mutation) : PgState :=
  db

/-! ### Theorems for claims C4 and C5 -/

/-- Helper: the audit log of a transaction's view is the prior log plus
exactly one trigger-produced event per mutation, in order. -/
theorem runTransaction_audit_log (db : PgState) (ms : List Mutation) :
    (runTransaction db ms).audit_log = db.audit_log ++ ms.map audit_products := by
  induction ms generalizing db with
  | nil => simp [runTransaction]
  | cons m rest ih =>
    show (runTransaction (fireMutation db m) rest).audit_log = _
    rw [ih]
    simp [fireMutation]

/-- C4: every row mutation in a transaction appends exactly one
`AuditEvent` in the same transaction (one event per mutation, in order); a
committed transaction's log is the prior log plus exactly the matching
event of each mutation, so no committed mutation lacks its audit record;
and a rolled-back transaction leaves the durable state — in particular the
audit log — exactly as it was, so a rolled-back insert contributes zero
audit records. -/
theorem audit_same_transaction (db : PgState) (ms : List Mutation) :
    (runTransaction db ms).audit_log.length = db.audit_log.length + ms.length ∧
    (commitTx db ms).audit_log = db.audit_log ++ ms.map audit_products ∧
    rollbackTx db ms = db := by
  refine ⟨?_, runTransaction_audit_log db ms, rfl⟩
  rw [runTransaction_audit_log db ms]
  simp

/-- Serialization rule of the spec, stated from its words: prior state is
absent for an insert and present otherwise. -/
def specPriorState : Mutation → Option PRow
  | .ins _ => none
  | .upd o _ => some o
  | .del o => some o

/-- Serialization rule of the spec: new state is absent for a delete and
present otherwise. -/
def specNewState : Mutation → Option PRow
  | .ins n => some n
  | .upd _ n => some n
  | .del _ => none

/-- The affected row's key: the key of the row state the mutation leaves
visible (the new state for insert/update, the old state for delete). -/
def specRowKey : Mutation → Int
  | .ins n => n.product_id
  | .upd _ n => n.product_id
  | .del o => o.product_id

/-- The operation label the spec expects on the audit record. -/
def specOpLabel : Mutation → String
  | .ins _ => "INSERT"
  | .upd _ _ => "UPDATE"
  | .del _ => "DELETE"

/-- C5: every `AuditEvent` produced by the trigger records exactly the
spec's serialization rule — insert: only the new state (prior absent);
update: both states present; delete: only the prior state (new absent) —
with the record's identifier equal to the affected row's key and the
matching operation label. In particular, deleting a previously inserted row
yields a delete event whose prior state equals the row's last values and
whose new state is null. -/
theorem audit_serialization_rule (m : Mutation) :
    (audit_products m).old_data = specPriorState m ∧
    (audit_products m).new_data = specNewState m ∧
    (audit_products m).record_id = specRowKey m ∧
    (audit_products m).operation = specOpLabel m ∧
    (audit_products m).table_name = "products" := by
  cases m <;> exact ⟨rfl, rfl, rfl, rfl, rfl⟩

/-! ### Endpoint resolution (`setup_lakebase_tables.py`,
`get_connection_params`, lines 54-87)

    if LAKEBASE_PROJECT_ID and not PGHOST_OVERRIDE:
        endpoints = list(w.postgres.list_endpoints(parent=...))
        if not endpoints: sys.exit(1)
        endpoint = w.postgres.get_endpoint(name=endpoints[0].name)
        host = endpoint.status.hosts.host
        username = w.current_user.me().user_name
        cred = w.postgres.generate_database_credential(endpoint=endpoints[0].name)
        password = cred.token
    elif PGHOST_OVERRIDE:
        host = PGHOST_OVERRIDE
        username = PGUSER_OVERRIDE or w.current_user.me().user_name
        password = os.getenv('PGPASSWORD', '') or w.config.oauth_token().access_token
    else:
        sys.exit(1)

Configuration strings use Python truthiness: the empty string means
"unset". `sys.exit(1)` is modelled as an error outcome. -/

/-- A compute endpoint as the discovery service reports it: its resource
name, its host, and the credential token `generate_database_credential`
would mint for it. -/
structure Ep where
  name : String
  host : String
  credToken : String
  deriving DecidableEq, Repr

/-- Result of `get_connection_params`: the `(host, username, password)`
triple or an exit, together with the number of calls made to the discovery
service (`list_endpoints`). -/
structure ConnParams where
  outcome : Except String (String × String × String)
  discoveryCalls : Nat
  deriving DecidableEq, Repr

/-- Embedding of `get_connection_params` (`setup_lakebase_tables.py` lines
54-87). `discovered` is what `list_endpoints` would return for the
configured (project, branch) scope. -/
def get_connection_params (project_id pghost_override pguser_override
    pgpassword oauth_token current_user : String) (discovered : List Ep) :
    ConnParams :=
  if project_id ≠ "" ∧ pghost_override = "" then
    match discovered with
    | [] => ⟨.error "No compute endpoints found", 1⟩
    | e :: _ => ⟨.ok (e.host, current_user, e.credToken), 1⟩
  else if pghost_override ≠ "" then
    ⟨.ok (pghost_override,
      if pguser_override ≠ "" then pguser_override else current_user,
      if pgpassword ≠ "" then pgpassword else oauth_token), 0⟩
  else
    ⟨.error "Set LAKEBASE_PROJECT_ID or PGHOST environment variable", 0⟩

/-- C6: when a static host override is configured the override host is
returned immediately with zero discovery-service calls — even when a
project id is also configured — and the returned host is the override;
otherwise, with a project id configured, the discovery service is queried
(exactly once) and the first endpoint of the returned list is selected. -/
theorem resolution_order (project_id pghost_override pguser_override
    pgpassword oauth_token current_user : String) (discovered : List Ep) :
    (pghost_override ≠ "" →
      (get_connection_params project_id pghost_override pguser_override
        pgpassword oauth_token current_user discovered).discoveryCalls = 0 ∧
      ∀ t, (get_connection_params project_id pghost_override pguser_override
        pgpassword oauth_token current_user discovered).outcome = .ok t →
        t.1 = pghost_override) ∧
    (pghost_override = "" → project_id ≠ "" →
      (get_connection_params project_id pghost_override pguser_override
        pgpassword oauth_token current_user discovered).discoveryCalls = 1 ∧
      ∀ e rest, discovered = e :: rest →
        (get_connection_params project_id pghost_override pguser_override
          pgpassword oauth_token current_user discovered).outcome =
          .ok (e.host, current_user, e.credToken)) := by
  constructor
  · intro hov
    have hcond : ¬ (project_id ≠ "" ∧ pghost_override = "") := by
      rintro ⟨-, h⟩
      exact hov h
    constructor
    · simp only [get_connection_params, if_neg hcond, if_pos hov]
    · intro t ht
      simp only [get_connection_params, if_neg hcond, if_pos hov] at ht
      cases ht
      rfl
  · intro hov hpid
    have hcond : project_id ≠ "" ∧ pghost_override = "" := ⟨hpid, hov⟩
    constructor
    · cases discovered <;> simp [get_connection_params, if_pos hcond]
    · rintro e rest rfl
      simp [get_connection_params, if_pos hcond]

/-- Witness for `resolution_order`: with both an override and a project id
configured the override wins with no discovery call; with only the project
id, the first discovered endpoint is selected. -/
theorem resolution_order_witness :
    (get_connection_params "proj" "myhost" "" "" "tok" "me"
      [⟨"ep1", "h1", "t1"⟩]).discoveryCalls = 0 ∧
    (get_connection_params "proj" "" "" "" "tok" "me"
      [⟨"ep1", "h1", "t1"⟩, ⟨"ep2", "h2", "t2"⟩]).outcome = .ok ("h1", "me", "t1") := by
  constructor
  · exact ((resolution_order "proj" "myhost" "" "" "tok" "me"
      [⟨"ep1", "h1", "t1"⟩]).1 (by decide)).1
  · exact ((resolution_order "proj" "" "" "" "tok" "me"
      [⟨"ep1", "h1", "t1"⟩, ⟨"ep2", "h2", "t2"⟩]).2 rfl (by decide)).2
      ⟨"ep1", "h1", "t1"⟩ [⟨"ep2", "h2", "t2"⟩] rfl

/-! ### Compute resize (`setup_lakebase_project.py`, `resize_compute`,
lines 105-144)

    if max_cu - min_cu > 8:
        sys.exit(1)
    endpoints = list(w.postgres.list_endpoints(parent=...))
    if not endpoints:
        sys.exit(1)
    endpoint = endpoints[0]
    operation = w.postgres.update_endpoint(name=endpoint.name, ...)

Compute-unit values (Python floats) are modelled as rationals. -/

/-- Observable effects of one `resize_compute` call: the outcome, the
number of `list_endpoints` calls, and the endpoint updates issued (endpoint
name with the new autoscaling limits). -/
structure ResizeEffects where
  outcome : Except String String
  listCalls : Nat
  updates : List (String × ℚ × ℚ)
  deriving DecidableEq, Repr

/-- Embedding of `resize_compute` (`setup_lakebase_project.py` lines
105-144): validate the autoscaling range, then list endpoints and update
the first one. -/
def resize_compute (min_cu max_cu : ℚ) (endpoints : List Ep) : ResizeEffects :=
  if max_cu - min_cu > 8 then
    ⟨.error "Autoscaling range cannot exceed 8 CU", 0, []⟩
  else
    match endpoints with
    | [] => ⟨.error "No compute endpoints found", 1, []⟩
    | e :: _ => ⟨.ok e.name, 1, [(e.name, min_cu, max_cu)]⟩

/-- The literal reading of claim C10: a range wider than 8 CU fails before
any endpoint listing or update, and a range of at most 8 CU passes
validation and proceeds to issue the update. -/
def claimC10 : Prop :=
  ∀ (min_cu max_cu : ℚ) (endpoints : List Ep),
    (max_cu - min_cu > 8 →
      (∃ e, (resize_compute min_cu max_cu endpoints).outcome = .error e) ∧
      (resize_compute min_cu max_cu endpoints).listCalls = 0 ∧
      (resize_compute min_cu max_cu endpoints).updates = []) ∧
    (max_cu - min_cu ≤ 8 →
      (resize_compute min_cu max_cu endpoints).updates ≠ [])

/-- C10 counterexample: with a valid range but an empty endpoint list the
operation exits with "No compute endpoints found" and issues no update, so
"for max_cu - min_cu ≤ 8 the update proceeds" fails. -/
theorem resize_no_endpoints_cex :
    (resize_compute 1 2 []).updates = [] ∧
    (resize_compute 1 2 []).outcome = .error "No compute endpoints found" ∧
    ¬ claimC10 := by
  refine ⟨?_, ?_, fun h => ?_⟩
  · norm_num [resize_compute]
  · norm_num [resize_compute]
  · have h2 := (h 1 2 []).2 (by norm_num)
    refine h2 ?_
    norm_num [resize_compute]

/-- C10 amended: a requested range with max_cu - min_cu > 8 terminates with
an error before any `list_endpoints` call and before any endpoint update,
so no autoscaling configuration is changed; a range of at most 8 CU passes
the validation and, provided at least one endpoint exists, exactly one
update is issued, against the first listed endpoint and with the requested
limits. -/
theorem resize_validation_gate (min_cu max_cu : ℚ) (endpoints : List Ep) :
    (max_cu - min_cu > 8 →
      resize_compute min_cu max_cu endpoints =
        ⟨.error "Autoscaling range cannot exceed 8 CU", 0, []⟩) ∧
    (max_cu - min_cu ≤ 8 → ∀ e rest, endpoints = e :: rest →
      resize_compute min_cu max_cu endpoints =
        ⟨.ok e.name, 1, [(e.name, min_cu, max_cu)]⟩) := by
  constructor
  · intro hgt
    simp [resize_compute, hgt]
  · intro hle e rest hkey
    rw [hkey]
    simp [resize_compute, not_lt.mpr hle]

/-- Witness for `resize_validation_gate`: a 10-CU-wide request changes
nothing; a 3-CU-wide request updates the first endpoint. -/
theorem resize_validation_gate_witness :
    resize_compute 1 11 [⟨"ep1", "h1", "t1"⟩] =
      ⟨.error "Autoscaling range cannot exceed 8 CU", 0, []⟩ ∧
    resize_compute 1 4 [⟨"ep1", "h1", "t1"⟩] =
      ⟨.ok "ep1", 1, [("ep1", 1, 4)]⟩ :=
  ⟨(resize_validation_gate 1 11 [⟨"ep1", "h1", "t1"⟩]).1 (by norm_num),
   (resize_validation_gate 1 4 [⟨"ep1", "h1", "t1"⟩]).2 (by norm_num)
     ⟨"ep1", "h1", "t1"⟩ [] rfl⟩

/-! ### Audit read path (`dash_app.py`, `update_audit_log`, lines 1273-1301)

    query = "SELECT ... FROM ecommerce.audit_log WHERE 1=1"
    if table_filter and table_filter != 'all':
        query += " AND table_name = %s"
    if operation_filter and operation_filter != 'all':
        query += " AND operation = %s"
    query += " ORDER BY created_at DESC LIMIT 50"

The `ORDER BY` names only `created_at`: rows with equal timestamps come
back in an engine-chosen order, modelled here as the stored order of the
log (a stable sort), which for the `SERIAL` `audit_id` column is ascending
identifier order. Timestamps are modelled as naturals. -/

/-- A row of `ecommerce.audit_log` as the read query sees it (the columns
relevant to filtering and ordering). -/
structure AuditLogRow where
  audit_id : Nat
  table_name : String
  operation : String
  created_at : Nat
  deriving DecidableEq, Repr

/-- The WHERE clause built by `update_audit_log`: each filter applies only
when it is set (truthy) and not `'all'`. -/
def matchesFilters (table_filter operation_filter : String)
    (r : AuditLogRow) : Bool :=
  (if table_filter ≠ "" ∧ table_filter ≠ "all"
    then r.table_name = table_filter else true) &&
  (if operation_filter ≠ "" ∧ operation_filter ≠ "all"
    then r.operation = operation_filter else true)

/-- Stable insertion (into a list already sorted by `created_at`
descending) used to model `ORDER BY created_at DESC`. -/
def insertTsDesc (r : AuditLogRow) : List AuditLogRow → List AuditLogRow
  | [] => [r]
  | x :: xs =>
    if x.created_at ≤ r.created_at then r :: x :: xs
    else x :: insertTsDesc r xs

/-- Stable sort by `created_at` descending: rows with equal timestamps keep
their stored (ascending `audit_id`) order. -/
def sortTsDesc : List AuditLogRow → List AuditLogRow
  | [] => []
  | r :: rs => insertTsDesc r (sortTsDesc rs)

/-- Embedding of the SQL query `update_audit_log` executes: filter, order
by `created_at` descending, `LIMIT 50`. -/
def update_audit_log_query (log : List AuditLogRow)
    (table_filter operation_filter : String) : List AuditLogRow :=
  (sortTsDesc (log.filter (matchesFilters table_filter operation_filter))).take 50

/-- Membership is preserved by the modelled insertion. -/
theorem mem_insertTsDesc (a r : AuditLogRow) (l : List AuditLogRow) :
    a ∈ insertTsDesc r l ↔ a = r ∨ a ∈ l := by
  induction l with
  | nil => simp [insertTsDesc]
  | cons x xs ih =>
    by_cases h : x.created_at ≤ r.created_at
    · simp [insertTsDesc, h]
    · simp [insertTsDesc, h, ih]
      tauto

/-- Membership is preserved by the modelled sort. -/
theorem mem_sortTsDesc (a : AuditLogRow) (l : List AuditLogRow) :
    a ∈ sortTsDesc l ↔ a ∈ l := by
  induction l with
  | nil => simp [sortTsDesc]
  | cons x xs ih => simp [sortTsDesc, mem_insertTsDesc, ih]

/-- The modelled sort preserves length. -/
theorem length_sortTsDesc (l : List AuditLogRow) :
    (sortTsDesc l).length = l.length := by
  induction l with
  | nil => rfl
  | cons x xs ih =>
    have hlen : ∀ (r : AuditLogRow) (m : List AuditLogRow),
        (insertTsDesc r m).length = m.length + 1 := by
      intro r m
      induction m with
      | nil => rfl
      | cons y ys ihy =>
        by_cases h : y.created_at ≤ r.created_at
        · simp [insertTsDesc, h]
        · simp [insertTsDesc, h, ihy]
    simp [sortTsDesc, hlen, ih]

/-- Inserting into a timestamp-descending list keeps it
timestamp-descending. -/
theorem sorted_insertTsDesc (r : AuditLogRow) (l : List AuditLogRow)
    (hl : l.Pairwise fun a b => b.created_at ≤ a.created_at) :
    (insertTsDesc r l).Pairwise fun a b => b.created_at ≤ a.created_at := by
  induction l with
  | nil => simp [insertTsDesc]
  | cons x xs ih =>
    rcases List.pairwise_cons.mp hl with ⟨hx, hxs⟩
    by_cases h : x.created_at ≤ r.created_at
    · rw [insertTsDesc, if_pos h]
      refine List.pairwise_cons.mpr ⟨?_, hl⟩
      intro b hb
      rcases List.mem_cons.mp hb with rfl | hb
      · exact h
      · exact le_trans (hx b hb) h
    · rw [insertTsDesc, if_neg h]
      refine List.pairwise_cons.mpr ⟨?_, ih hxs⟩
      intro b hb
      rcases (mem_insertTsDesc b r xs).mp hb with rfl | hb
      · exact le_of_lt (lt_of_not_le h)
      · exact hx b hb

/-- The modelled sort produces a timestamp-descending list. -/
theorem sorted_sortTsDesc (l : List AuditLogRow) :
    (sortTsDesc l).Pairwise fun a b => b.created_at ≤ a.created_at := by
  induction l with
  | nil => exact List.Pairwise.nil
  | cons x xs ih => exact sorted_insertTsDesc x (sortTsDesc xs) ih

/-- The literal reading of claim C8's ordering guarantee: any two returned
records are ordered newest-first by the (timestamp, identifier) pair, the
identifier breaking timestamp ties. -/
def claimC8 : Prop :=
  ∀ (log : List AuditLogRow) (table_filter operation_filter : String),
    (update_audit_log_query log table_filter operation_filter).Pairwise
      fun a b => b.created_at < a.created_at ∨
        (b.created_at = a.created_at ∧ b.audit_id < a.audit_id)

/-- C8 counterexample: the SQL orders by `created_at DESC` alone — there is
no `audit_id` tie-break — so two records sharing a timestamp come back in
stored order, identifier ascending: record 1 precedes record 2 although the
claim requires the later (timestamp, identifier) pair first. -/
theorem audit_order_no_tiebreak_cex :
    update_audit_log_query
        [⟨1, "products", "INSERT", 5⟩, ⟨2, "products", "INSERT", 5⟩] "all" "all" =
      [⟨1, "products", "INSERT", 5⟩, ⟨2, "products", "INSERT", 5⟩] ∧
    ¬ claimC8 := by
  refine ⟨by decide, fun h => ?_⟩
  have h2 := h [⟨1, "products", "INSERT", 5⟩, ⟨2, "products", "INSERT", 5⟩]
    "all" "all"
  revert h2
  decide

/-- C8 amended: the returned records all match the given filters, are at
most 50, and are ordered newest-first by timestamp only (records with equal
timestamps keep the log's stored order — there is no identifier tie-break);
whenever at most 50 records match, the result is exactly the matching
records. -/
theorem audit_query_spec (log : List AuditLogRow)
    (table_filter operation_filter : String) :
    (update_audit_log_query log table_filter operation_filter).Pairwise
      (fun a b => b.created_at ≤ a.created_at) ∧
    (update_audit_log_query log table_filter operation_filter).length ≤ 50 ∧
    (∀ r ∈ update_audit_log_query log table_filter operation_filter,
      matchesFilters table_filter operation_filter r = true) ∧
    ((log.filter (matchesFilters table_filter operation_filter)).length ≤ 50 →
      ∀ r, r ∈ update_audit_log_query log table_filter operation_filter ↔
        r ∈ log ∧ matchesFilters table_filter operation_filter r = true) := by
  refine ⟨?_, ?_, ?_, ?_⟩
  · exact List.Pairwise.sublist (List.take_sublist 50 _) (sorted_sortTsDesc _)
  · rw [update_audit_log_query]
    simp [List.length_take]
  · intro r hr
    have hmem : r ∈ sortTsDesc (log.filter
        (matchesFilters table_filter operation_filter)) :=
      (List.take_sublist 50 _).mem hr
    exact (List.mem_filter.mp ((mem_sortTsDesc r _).mp hmem)).2
  · intro hlen r
    have htake : (sortTsDesc (log.filter
        (matchesFilters table_filter operation_filter))).take 50 =
        sortTsDesc (log.filter (matchesFilters table_filter operation_filter)) := by
      refine List.take_of_length_le ?_
      rw [length_sortTsDesc]
      exact hlen
    rw [update_audit_log_query, htake, mem_sortTsDesc, List.mem_filter]

/-- Witness for `audit_query_spec`: a three-row log with one filtered-out
row returns exactly the two matching rows, newest first. -/
theorem audit_query_spec_witness :
    update_audit_log_query
        [⟨1, "products", "INSERT", 3⟩, ⟨2, "users", "INSERT", 7⟩,
         ⟨3, "products", "DELETE", 9⟩] "products" "all" =
      [⟨3, "products", "DELETE", 9⟩, ⟨1, "products", "INSERT", 3⟩] ∧
    (⟨3, "products", "DELETE", 9⟩ : AuditLogRow) ∈ update_audit_log_query
        [⟨1, "products", "INSERT", 3⟩, ⟨2, "users", "INSERT", 7⟩,
         ⟨3, "products", "DELETE", 9⟩] "products" "all" := by
  constructor
  · decide
  · exact ((audit_query_spec
      [⟨1, "products", "INSERT", 3⟩, ⟨2, "users", "INSERT", 7⟩,
       ⟨3, "products", "DELETE", 9⟩] "products" "all").2.2.2 (by decide)
      ⟨3, "products", "DELETE", 9⟩).mpr (by decide)

/-! ### Concurrent callers of the token cache (claim C9)

`refresh_oauth_token` (`dash_app.py` lines 37-48) guards the shared globals
`postgres_password` / `last_password_refresh` with no lock: each caller
first evaluates the cache-miss test and only then, in separate statements,
calls the issuing service and stores the result. The two-step structure is
modelled as a per-caller program counter (check, then refresh) over shared
state, with an arbitrary interleaving of two callers. -/

/-- The shared token-cache state seen by concurrent callers, with a counter
of issuance calls performed so far. -/
structure TokSim where
  cache : Option Nat
  issuances : Nat
  deriving DecidableEq, Repr

/-- A caller's position inside `refresh_oauth_token`: before the cache-miss
test, past a positive test (about to issue), or returned. -/
inductive CallerPc where
  | start
  | willRefresh
  | finished
  deriving DecidableEq, Repr

/-- One atomic step of a caller: at `start` it evaluates the unguarded
cache-miss test (`postgres_password is None`); at `willRefresh` it calls
the issuing service and stores the new token. -/
def callerStep (s : TokSim) (pc : CallerPc) : TokSim × CallerPc :=
  match pc with
  | .start => (s, if s.cache = none then .willRefresh else .finished)
  | .willRefresh => (⟨some 1, s.issuances + 1⟩, .finished)
  | .finished => (s, .finished)

/-- Two callers interleaved over the shared cache. -/
structure TwoCallers where
  sim : TokSim
  pc0 : CallerPc
  pc1 : CallerPc
  deriving DecidableEq, Repr

/-- Run the step of the scheduled caller (`false` = caller 0). -/
def sysStep (sys : TwoCallers) (tid : Bool) : TwoCallers :=
  if tid then
    ⟨(callerStep sys.sim sys.pc1).1, sys.pc0, (callerStep sys.sim sys.pc1).2⟩
  else
    ⟨(callerStep sys.sim sys.pc0).1, (callerStep sys.sim sys.pc0).2, sys.pc1⟩

/-- Run a whole schedule of caller steps. -/
def runSched (sys : TwoCallers) : List Bool → TwoCallers
  | [] => sys
  | t :: ts => runSched (sysStep sys t) ts

/-- How many issuance calls a caller at this position can still perform. -/
def pcPending : CallerPc → Nat
  | .finished => 0
  | _ => 1

/-- The literal reading of claim C9: for every interleaving of two callers
that both start during a cache miss, at most one issuance call is
triggered. -/
def claimC9 : Prop :=
  ∀ sched : List Bool,
    (runSched ⟨⟨none, 0⟩, .start, .start⟩ sched).sim.issuances ≤ 1

/-- C9 counterexample: with no lock around the check-then-refresh sequence,
the interleaving "caller 0 checks, caller 1 checks, caller 0 issues,
caller 1 issues" makes both callers observe the miss and both call the
issuing service: two issuances, not one. -/
theorem refresh_storm_cex :
    (runSched ⟨⟨none, 0⟩, .start, .start⟩
      [false, true, false, true]).sim.issuances = 2 ∧
    ¬ claimC9 := by
  refine ⟨by decide, fun h => ?_⟩
  have h2 := h [false, true, false, true]
  revert h2
  decide

/-- C9 amended: there is no single-flight guarantee — each caller performs
at most one issuance per call, so an interleaving of two callers performs
at most two issuances (and the bound one-per-pending-caller holds from any
state), but overlapping callers during a cache miss can each trigger their
own issuance. -/
theorem refresh_issuance_bound :
    (∀ (sys : TwoCallers) (sched : List Bool),
      (runSched sys sched).sim.issuances ≤
        sys.sim.issuances + pcPending sys.pc0 + pcPending sys.pc1) ∧
    (∀ sched : List Bool,
      (runSched ⟨⟨none, 0⟩, .start, .start⟩ sched).sim.issuances ≤ 2) := by
  have hstep : ∀ (sys : TwoCallers) (t : Bool),
      (sysStep sys t).sim.issuances + pcPending (sysStep sys t).pc0 +
        pcPending (sysStep sys t).pc1 ≤
      sys.sim.issuances + pcPending sys.pc0 + pcPending sys.pc1 := by
    intro sys t
    cases t
    · cases h0 : sys.pc0
      · simp only [sysStep, callerStep, h0, Bool.false_eq_true, if_false]
        split <;> simp [pcPending]
      · simp [sysStep, callerStep, h0, pcPending]
      · simp [sysStep, callerStep, h0, pcPending]
    · cases h1 : sys.pc1
      · simp only [sysStep, callerStep, h1, if_true]
        split <;> simp [pcPending]
      · simp only [sysStep, callerStep, h1, pcPending, if_true]
        omega
      · simp [sysStep, callerStep, h1, pcPending]
  have hmain : ∀ (sched : List Bool) (sys : TwoCallers),
      (runSched sys sched).sim.issuances + pcPending (runSched sys sched).pc0 +
        pcPending (runSched sys sched).pc1 ≤
      sys.sim.issuances + pcPending sys.pc0 + pcPending sys.pc1 := by
    intro sched
    induction sched with
    | nil => intro sys; exact le_refl _
    | cons t ts ih =>
      intro sys
      exact le_trans (ih (sysStep sys t)) (hstep sys t)
  constructor
  · intro sys sched
    have h := hmain sched sys
    omega
  · intro sched
    have h := hmain sched ⟨⟨none, 0⟩, .start, .start⟩
    have ha : pcPending (⟨⟨none, 0⟩, .start, .start⟩ : TwoCallers).pc0 = 1 := rfl
    have hb : pcPending (⟨⟨none, 0⟩, .start, .start⟩ : TwoCallers).pc1 = 1 := rfl
    have hz : (⟨⟨none, 0⟩, .start, .start⟩ : TwoCallers).sim.issuances = 0 := rfl
    omega

end LakebaseTraining
